import Mathlib

/-!
Verification of the SharePoint MCP bridge.

A shallow embedding of the two modules of this repository:

* `mcp_server.py` — the FastMCP tool server exposing `list_folder`,
  `download_file`, `upload_file` and `resolve_download_url` over a lazily
  cached `SharePointService` handle;
* `mcp_client.py` — the ChatGPT prompt dispatcher (`ensure_prompt`,
  `run_chatgpt_request`, `main`).

Python `bytes` values are modelled as `List Nat` (each entry `< 256`),
dictionaries shipped over the tool protocol as association lists of
`JValue`s, and the external `mcp_sharepoint` collaborator as a structure of
abstract functions (its pieces that the spec pins down are modelled from the
spec and marked as such).  Stateful pieces (`functools.lru_cache`) are
modelled by explicit state passing.
-/

set_option autoImplicit false

namespace McpSharePoint

/-! ## JSON-like values

The tool results are Python `dict[str, Any]` literals; we model them as
association lists over a small value universe. -/

/-- A value appearing in a tool-result mapping. -/
inductive JValue where
  | str : String → JValue
  | num : Nat → JValue
  | arr : List JValue → JValue
  | obj : List (String × JValue) → JValue
deriving Repr

/-! ## Base64 (`base64.b64encode` / `base64.b64decode`)

`base64.b64decode` on a `str` payload first ASCII-encodes it (raising
`ValueError` on non-ASCII characters) and then runs the CPython
non-strict mode of `binascii.a2b_base64`: characters outside the alphabet are
discarded, `'='` closes a quad once at least two data characters of the quad
have been seen (everything after the closing padding is ignored), and a
dangling partial quad at the end raises `binascii.Error`. -/

/-- The standard base64 alphabet, by 6-bit value (`0 ≤ n < 64`). -/
def b64alphabet (n : Nat) : Char :=
  if n < 26 then Char.ofNat (65 + n)
  else if n < 52 then Char.ofNat (97 + (n - 26))
  else if n < 62 then Char.ofNat (48 + (n - 52))
  else if n = 62 then '+'
  else '/'

/-- The value table of CPython a2b_base64 decoding: the 6-bit value of an alphabet
character, `none` for a character outside the alphabet. -/
def b64table (c : Char) : Option Nat :=
  if 'A' ≤ c ∧ c ≤ 'Z' then some (c.toNat - 65)
  else if 'a' ≤ c ∧ c ≤ 'z' then some (c.toNat - 97 + 26)
  else if '0' ≤ c ∧ c ≤ '9' then some (c.toNat - 48 + 52)
  else if c = '+' then some 62
  else if c = '/' then some 63
  else none

/-- Encoding `base64.b64encode` on a byte string, producing the character stream
(3 bytes become 4 characters; the final partial group is `'='`-padded). -/
def b64encode : List Nat → List Char
  | [] => []
  | [a] =>
      [b64alphabet (a / 4), b64alphabet (a % 4 * 16), '=', '=']
  | [a, b] =>
      [b64alphabet (a / 4), b64alphabet (a % 4 * 16 + b / 16),
       b64alphabet (b % 16 * 4), '=']
  | a :: b :: c :: rest =>
      b64alphabet (a / 4) :: b64alphabet (a % 4 * 16 + b / 16) ::
      b64alphabet (b % 16 * 4 + c / 64) :: b64alphabet (c % 64) ::
      b64encode rest

/-- The quad loop of `binascii.a2b_base64` in non-strict mode.
`quadPos` is the number of data characters seen in the current quad,
`left` the pending bits, `pads` the run of `'='` seen at `quadPos ≥ 2`,
`acc` the output bytes in reverse. -/
def a2bLoop : List Char → Nat → Nat → Nat → List Nat → Option (List Nat)
  | [], quadPos, _left, _pads, acc =>
      if quadPos = 0 then some acc.reverse else none
  | ch :: rest, quadPos, left, pads, acc =>
      if ch = '=' then
        if 2 ≤ quadPos then
          if 4 ≤ quadPos + (pads + 1) then some acc.reverse
          else a2bLoop rest quadPos left (pads + 1) acc
        else a2bLoop rest quadPos left pads acc
      else
        match b64table ch with
        | none => a2bLoop rest quadPos left pads acc
        | some v =>
          match quadPos with
          | 0 => a2bLoop rest 1 v 0 acc
          | 1 => a2bLoop rest 2 (v % 16) 0 ((left * 4 + v / 16) :: acc)
          | 2 => a2bLoop rest 3 (v % 4) 0 ((left * 16 + v / 4) :: acc)
          | _ => a2bLoop rest 0 0 0 ((left * 64 + v) :: acc)

/-- Decoding `base64.b64decode` on a `str` payload: ASCII check, then the
non-strict `a2b_base64` loop; `none` models the raised exception. -/
def b64decode (s : String) : Option (List Nat) :=
  if s.data.all (fun c => c.toNat < 128) then a2bLoop s.data 0 0 0 []
  else none

/-! ## UTF-8 (`str.encode("utf-8")`) -/

/-- The UTF-8 byte sequence of one Unicode scalar value. -/
def utf8EncodeChar (c : Char) : List Nat :=
  let n := c.toNat
  if n < 128 then [n]
  else if n < 2048 then [192 + n / 64, 128 + n % 64]
  else if n < 65536 then [224 + n / 4096, 128 + n / 64 % 64, 128 + n % 64]
  else [240 + n / 262144, 128 + n / 4096 % 64, 128 + n / 64 % 64, 128 + n % 64]

/-- UTF-8 encoding of a payload string, as a byte list. -/
def utf8Encode (s : String) : List Nat :=
  (s.data.map utf8EncodeChar).flatten

/-! ## The external `mcp_sharepoint` collaborator

`SharePointService`, `SharePointSettings` and `SharePointDownload` live in
the external `mcp_sharepoint` library; only their interface (spec §6
"Backend service client interface consumed") is visible to this repository,
so they are modelled from the spec as abstract data. -/

/-- A file or folder entry returned by the backend enumeration
(spec §3 "Folder Listing Entry"). -/
structure SPItem where
  name : String
  server_relative_path : String
  is_folder : Bool
  size : Nat
  download_url : String

/-- File metadata returned by the backend on upload/download
(spec §3 "File Payload" metadata part). -/
structure SPFile where
  name : String
  server_relative_path : String
  size : Nat
  download_url : String

/-- Downloaded content: the Python union of `str` and `bytes`, as a tagged
variant (`isinstance(content, str)` becomes a `match`). -/
inductive Content where
  | text : String → Content
  | binary : List Nat → Content

/-- A download result `SharePointDownload`: metadata plus content. -/
structure SharePointDownload where
  file : SPFile
  content : Content

/-- Modelled from the spec: `SharePointSettings` — backend-service settings
(site URL and credentials, opaque to this repository, spec §6). -/
structure SharePointSettings where
  site_url : String
  credentials : String

/-- Modelled from the spec: the backend service client (spec §6).  Its
operations are abstract functions; `enumerate` is the enumeration of the
immediate children of a folder by resolved path, the second
argument of `download_file` is the optional `as_text` keyword (`none` models the call without
the keyword, i.e. "auto"), `upload_file` performs the write and returns the
metadata of the created file, and `default_library` is the configured default
library path the client exposes. -/
structure SharePointService where
  default_library : String
  enumerate : String → List SPItem
  download_file : String → Option Bool → SharePointDownload
  upload_file : String → String → List Nat → SPFile
  build_absolute_url : String → String

/-- Modelled from the spec: the `list_folder` method of the external client —
"optional path (defaults to configured library root)" (spec §4.2); returns
the path actually queried together with the entries, so that the query is
observable. -/
def SharePointService.list_folder (svc : SharePointService)
    (path : Option String) : String × List SPItem :=
  let q := path.getD svc.default_library
  (q, svc.enumerate q)

end McpSharePoint

namespace McpServer

open McpSharePoint

/-- Python semantics of `x or default` for an optional string: `None` and `""` are
falsy and select the default. -/
def strOrDefault : Option String → String → String
  | none, d => d
  | some s, d => if s = "" then d else s

/-- The helper named with a leading underscore in `mcp_server.py` that serializes a file: the metadata mapping, plus the
content (tagged by `content_type`) when `include_content` is set. -/
def serialize_file (file_obj : SharePointDownload)
    (include_content : Bool) : List (String × JValue) :=
  let base := [("name", JValue.str file_obj.file.name),
               ("path", JValue.str file_obj.file.server_relative_path),
               ("size", JValue.num file_obj.file.size),
               ("download_url", JValue.str file_obj.file.download_url)]
  if include_content then
    match file_obj.content with
    | Content.text s =>
        base ++ [("content_type", JValue.str "text"), ("text", JValue.str s)]
    | Content.binary b =>
        base ++ [("content_type", JValue.str "base64"),
                 ("base64", JValue.str (String.mk (b64encode b)))]
  else base

/-- The serialization of one folder entry inside the result of `list_folder`. -/
def item_json (item : SPItem) : JValue :=
  JValue.obj [("name", JValue.str item.name),
              ("path", JValue.str item.server_relative_path),
              ("type", JValue.str (if item.is_folder then "folder" else "file")),
              ("size", JValue.num item.size),
              ("download_url", JValue.str item.download_url)]

/-- The `list_folder` tool.  Besides the result mapping it returns the path
at which the backend enumeration was queried (the observable of
`svc.list_folder(path)`). -/
def list_folder (svc : SharePointService) (path : Option String) :
    List (String × JValue) × String :=
  let (queried, items) := svc.list_folder path
  ([("path", JValue.str (strOrDefault path svc.default_library)),
    ("items", JValue.arr (items.map item_json))],
   queried)

/-- The `mode` literal of `download_file`. -/
inductive Mode where
  | auto | text | binary
deriving DecidableEq

/-- The `download_file` tool. -/
def download_file (svc : SharePointService) (path : String) (mode : Mode) :
    List (String × JValue) :=
  let download :=
    match mode with
    | Mode.text => svc.download_file path (some true)
    | Mode.binary => svc.download_file path (some false)
    | Mode.auto => svc.download_file path none
  serialize_file download true

/-- A tool-invocation failure raised by this code before reaching the
backend: the `binascii.Error`/`ValueError` out of `base64.b64decode`. -/
inductive ToolError where
  | invalid_base64
  | settings_missing : String → ToolError

/-- The `upload_file` tool.  The second component is the trace of backend
`upload_file` calls made (folder, name, data), so that write side effects
are observable; a decode failure raises before any call is traced. -/
def upload_file (svc : SharePointService) (folder : Option String)
    (name : String) (payload : String) (is_base64 : Bool) :
    Except ToolError (List (String × JValue)) × List (String × String × List Nat) :=
  let raw_folder := strOrDefault folder svc.default_library
  match (if is_base64 then b64decode payload else some (utf8Encode payload)) with
  | none => (Except.error ToolError.invalid_base64, [])
  | some data =>
      let file_obj := svc.upload_file raw_folder name data
      (Except.ok [("name", JValue.str file_obj.name),
                  ("path", JValue.str file_obj.server_relative_path),
                  ("size", JValue.num file_obj.size),
                  ("download_url", JValue.str file_obj.download_url)],
       [(raw_folder, name, data)])

/-- Modelled from the spec: the external client honors the `as_text`
keyword of its download operation — "'text' forces UTF-8 decode, 'binary'
forces raw-bytes" (spec §4.2, §6). -/
def honors_as_text (svc : SharePointService) : Prop :=
  (∀ p : String, ∃ s, (svc.download_file p (some true)).content = Content.text s) ∧
  (∀ p : String, ∃ b, (svc.download_file p (some false)).content = Content.binary b)

/-- The `resolve_download_url` tool. -/
def resolve_download_url (svc : SharePointService) (path : String) :
    List (String × JValue) :=
  [("path", JValue.str path),
   ("download_url", JValue.str (svc.build_absolute_url path))]

/-! ## The service singleton (`@lru_cache(maxsize=1)` on `get_service`)

The environment is fixed for the process lifetime, so
`SharePointSettings.from_env` is modelled as a fixed
`Except String SharePointSettings` (the `RuntimeError` branch is `error`),
and the external constructor `SharePointService(settings)` as an abstract
`build` function.  `lru_cache` stores only a successful return value; an
exception escapes uncached.  The cache cell is threaded explicitly. -/

/-- The cached getter `get_service` on an explicit cache cell: a hit returns the cached
handle; a miss loads settings (propagating the `RuntimeError`) and
constructs the service, filling the cache.  The `Nat` counts constructions
performed by this call (0 or 1). -/
def get_service (fromEnv : Except String SharePointSettings)
    (build : SharePointSettings → SharePointService)
    (cache : Option SharePointService) :
    Except String SharePointService × Option SharePointService × Nat :=
  match cache with
  | some svc => (Except.ok svc, some svc, 0)
  | none =>
      match fromEnv with
      | Except.error e => (Except.error e, none, 0)
      | Except.ok settings =>
          let svc := build settings
          (Except.ok svc, some svc, 1)

/-- One incoming tool invocation, as dispatched by the FastMCP loop. -/
inductive ToolOp where
  | list : Option String → ToolOp
  | download : String → Mode → ToolOp
  | upload : Option String → String → String → Bool → ToolOp
  | resolve : String → ToolOp

/-- The body of one tool invocation, given the service handle obtained from
`get_service`. -/
def run_tool (svc : SharePointService) : ToolOp → Except ToolError JValue
  | ToolOp.list path => Except.ok (JValue.obj (list_folder svc path).1)
  | ToolOp.download path mode => Except.ok (JValue.obj (download_file svc path mode))
  | ToolOp.upload folder name payload b =>
      (upload_file svc folder name payload b).1.map JValue.obj
  | ToolOp.resolve path => Except.ok (JValue.obj (resolve_download_url svc path))

/-- The process state across tool invocations: the `lru_cache` cell of
`get_service`, plus the running count of `SharePointService` constructions
(the observable for "constructed at most once"). -/
structure ProcState where
  cache : Option SharePointService
  constructions : Nat

/-- One tool invocation: the tool first calls `get_service()` and then runs
its body.  Returns the result, the service handle the body used (`none`
when settings loading failed), and the new process state. -/
def process_op (fromEnv : Except String SharePointSettings)
    (build : SharePointSettings → SharePointService)
    (st : ProcState) (op : ToolOp) :
    (Except ToolError JValue × Option SharePointService) × ProcState :=
  match get_service fromEnv build st.cache with
  | (Except.error e, cache', k) =>
      ((Except.error (ToolError.settings_missing e), none),
       ⟨cache', st.constructions + k⟩)
  | (Except.ok svc, cache', k) =>
      ((run_tool svc op, some svc), ⟨cache', st.constructions + k⟩)

/-- A whole sequence of tool invocations within one process. -/
def process_ops (fromEnv : Except String SharePointSettings)
    (build : SharePointSettings → SharePointService) :
    List ToolOp → ProcState →
    List (Except ToolError JValue × Option SharePointService) × ProcState
  | [], st => ([], st)
  | op :: ops, st =>
      let (out, st') := process_op fromEnv build st op
      let (outs, st'') := process_ops fromEnv build ops st'
      (out :: outs, st'')

/-- The state a fresh process starts in: empty cache, nothing built. -/
def initState : ProcState := ⟨none, 0⟩

end McpServer

namespace McpClient

/-- Space joining of `mcp_client.py`, written as Python writes `str.join`:
the separator goes strictly between consecutive elements. -/
def joinSpace : List String → String
  | [] => ""
  | [w] => w
  | w :: ws => w ++ " " ++ joinSpace ws

/-- The prompt normalizer `ensure_prompt`: a truthy (non-empty) word sequence is joined with
single spaces; an empty one falls back to the fixed default query. -/
def ensure_prompt (words : List String) : String :=
  if words.isEmpty then
    "List the files available in our SharePoint document library."
  else joinSpace words

/-- The chat-completion request that `run_chatgpt_request` constructs and
submits (spec §3 "Request Configuration"; the sampling temperature is a
real-valued knob, modelled as `ℚ` and never inspected). -/
structure ChatRequest where
  model : String
  prompt : String
  temperature : ℚ
  server_command : String
  server_args : List String

/-- The command-line arguments after `argparse` (spec §3 "Request
Configuration"): positional prompt words plus the flag values. -/
structure ParsedArgs where
  prompt : List String
  model : String
  temperature : ℚ
  server_command : String
  server_args : List String

/-- What `main` does, observably. -/
inductive MainOutcome where
  | usage_error : String → MainOutcome
  | printed : String → MainOutcome

/-- Python truthiness of `os.getenv(...)`: unset (`None`) and `""` are
falsy. -/
def truthyEnv : Option String → Bool
  | none => false
  | some s => s ≠ ""

/-- The entry point `main` of `mcp_client.py`.  `api_key` is the value of `os.getenv` on the credential variable;
`respond` models the hosted completion API (`response.output_text`, whose
`None` is replaced by `""` via `or ""`).  The second component is the trace
of chat-completion requests submitted to the network. -/
def main (api_key : Option String) (args : ParsedArgs)
    (respond : ChatRequest → Option String) :
    MainOutcome × List ChatRequest :=
  let prompt := ensure_prompt args.prompt
  if truthyEnv api_key = false then
    (MainOutcome.usage_error "OPENAI_API_KEY environment variable must be set", [])
  else
    let req : ChatRequest :=
      { model := args.model, prompt := prompt,
        temperature := args.temperature,
        server_command := args.server_command,
        server_args := args.server_args }
    ((respond req).getD "" |> MainOutcome.printed, [req])

end McpClient

/-! ## Concrete fixtures evaluated by the witnesses -/

namespace Sample

open McpSharePoint

/-- A concrete settings value. -/
def settings : SharePointSettings :=
  { site_url := "https://contoso.example.com/sites/demo", credentials := "secret" }

/-- The configured default library of the concrete backend. -/
def library : String := "/sites/demo/Shared Documents"

/-- A concrete well-behaved backend client. -/
def service : SharePointService :=
  { default_library := library,
    enumerate := fun _ => [],
    download_file := fun p b =>
      { file := { name := "f.txt", server_relative_path := p, size := 2,
                  download_url := "https://sp" ++ p },
        content :=
          match b with
          | some false => Content.binary [104, 105]
          | _ => Content.text "hi" },
    upload_file := fun folder name data =>
      { name := name, server_relative_path := folder ++ "/" ++ name,
        size := data.length,
        download_url := "https://sp" ++ folder ++ "/" ++ name },
    build_absolute_url := fun p => "https://sp" ++ p }

/-- A concrete binary download. -/
def binaryDownload : SharePointDownload :=
  { file := { name := "img.bin", server_relative_path := "/sites/demo/img.bin",
              size := 3, download_url := "https://sp/img.bin" },
    content := Content.binary [0, 255, 7] }

/-- The result mapping of a concrete upload against `service`. -/
def uploadResult : List (String × JValue) :=
  [("name", JValue.str "f.txt"),
   ("path", JValue.str "/sites/demo/Shared Documents/f.txt"),
   ("size", JValue.num 2),
   ("download_url", JValue.str "https://sp/sites/demo/Shared Documents/f.txt")]

/-- Concrete parsed command-line arguments for the dispatcher. -/
def args : McpClient.ParsedArgs :=
  { prompt := [], model := "gpt-4.1-mini", temperature := 1/10,
    server_command := "python", server_args := ["mcp_server.py"] }

/-- The request `main` builds from `args` (default prompt, no words). -/
def request : McpClient.ChatRequest :=
  { model := "gpt-4.1-mini",
    prompt := "List the files available in our SharePoint document library.",
    temperature := 1/10, server_command := "python",
    server_args := ["mcp_server.py"] }

end Sample

/-! ## Base64 round-trip -/

namespace McpSharePoint

theorem b64table_b64alphabet : ∀ v : Nat, v < 64 → b64table (b64alphabet v) = some v := by
  decide

theorem b64alphabet_ne_pad : ∀ v : Nat, v < 64 → b64alphabet v ≠ '=' := by
  decide

theorem b64alphabet_ascii : ∀ v : Nat, v < 64 → (b64alphabet v).toNat < 128 := by
  decide

/-- Stepping the decode loop over an alphabet character, first in its quad. -/
theorem a2bLoop_alpha0 (v : Nat) (hv : v < 64) (rest : List Char)
    (left pads : Nat) (acc : List Nat) :
    a2bLoop (b64alphabet v :: rest) 0 left pads acc =
      a2bLoop rest 1 v 0 acc := by
  rw [a2bLoop, if_neg (b64alphabet_ne_pad v hv), b64table_b64alphabet v hv]

/-- Stepping the decode loop over an alphabet character, second in its quad. -/
theorem a2bLoop_alpha1 (v : Nat) (hv : v < 64) (rest : List Char)
    (left pads : Nat) (acc : List Nat) :
    a2bLoop (b64alphabet v :: rest) 1 left pads acc =
      a2bLoop rest 2 (v % 16) 0 ((left * 4 + v / 16) :: acc) := by
  rw [a2bLoop, if_neg (b64alphabet_ne_pad v hv), b64table_b64alphabet v hv]

/-- Stepping the decode loop over an alphabet character, third in its quad. -/
theorem a2bLoop_alpha2 (v : Nat) (hv : v < 64) (rest : List Char)
    (left pads : Nat) (acc : List Nat) :
    a2bLoop (b64alphabet v :: rest) 2 left pads acc =
      a2bLoop rest 3 (v % 4) 0 ((left * 16 + v / 4) :: acc) := by
  rw [a2bLoop, if_neg (b64alphabet_ne_pad v hv), b64table_b64alphabet v hv]

/-- Stepping the decode loop over an alphabet character, fourth in its quad. -/
theorem a2bLoop_alpha3 (v : Nat) (hv : v < 64) (rest : List Char)
    (left pads : Nat) (acc : List Nat) :
    a2bLoop (b64alphabet v :: rest) 3 left pads acc =
      a2bLoop rest 0 0 0 ((left * 64 + v) :: acc) := by
  rw [a2bLoop, if_neg (b64alphabet_ne_pad v hv), b64table_b64alphabet v hv]

/-- The decode loop inverts `b64encode`, for genuine bytes. -/
theorem a2bLoop_b64encode (B : List Nat) (hB : ∀ x ∈ B, x < 256)
    (acc : List Nat) :
    a2bLoop (b64encode B) 0 0 0 acc = some (acc.reverse ++ B) := by
  induction B using b64encode.induct generalizing acc with
  | case1 =>
      simp [b64encode, a2bLoop]
  | case2 a =>
      have ha : a < 256 := hB a (by simp)
      rw [show b64encode [a] =
            [b64alphabet (a / 4), b64alphabet (a % 4 * 16), '=', '='] from rfl,
        a2bLoop_alpha0 (a / 4) (by omega),
        a2bLoop_alpha1 (a % 4 * 16) (by omega)]
      rw [show a / 4 * 4 + a % 4 * 16 / 16 = a by omega]
      simp [a2bLoop]
  | case3 a b =>
      have ha : a < 256 := hB a (by simp)
      have hb : b < 256 := hB b (by simp)
      rw [show b64encode [a, b] =
            [b64alphabet (a / 4), b64alphabet (a % 4 * 16 + b / 16),
             b64alphabet (b % 16 * 4), '='] from rfl,
        a2bLoop_alpha0 (a / 4) (by omega),
        a2bLoop_alpha1 (a % 4 * 16 + b / 16) (by omega)]
      rw [show a / 4 * 4 + (a % 4 * 16 + b / 16) / 16 = a by omega]
      rw [a2bLoop_alpha2 (b % 16 * 4) (by omega)]
      rw [show (a % 4 * 16 + b / 16) % 16 * 16 + b % 16 * 4 / 4 = b by omega]
      simp [a2bLoop]
  | case4 a b c rest ih =>
      have ha : a < 256 := hB a (by simp)
      have hb : b < 256 := hB b (by simp)
      have hc : c < 256 := hB c (by simp)
      rw [show b64encode (a :: b :: c :: rest) =
            b64alphabet (a / 4) :: b64alphabet (a % 4 * 16 + b / 16) ::
            b64alphabet (b % 16 * 4 + c / 64) :: b64alphabet (c % 64) ::
            b64encode rest from rfl,
        a2bLoop_alpha0 (a / 4) (by omega),
        a2bLoop_alpha1 (a % 4 * 16 + b / 16) (by omega)]
      rw [show a / 4 * 4 + (a % 4 * 16 + b / 16) / 16 = a by omega]
      rw [a2bLoop_alpha2 (b % 16 * 4 + c / 64) (by omega)]
      rw [show (a % 4 * 16 + b / 16) % 16 * 16 + (b % 16 * 4 + c / 64) / 4 = b
        by omega]
      rw [a2bLoop_alpha3 (c % 64) (by omega)]
      rw [show (b % 16 * 4 + c / 64) % 4 * 64 + c % 64 = c by omega]
      rw [ih (fun x hx => hB x (by simp [hx])) (c :: b :: a :: acc)]
      simp

/-- Every character `b64encode` emits is ASCII. -/
theorem b64encode_ascii (B : List Nat) (hB : ∀ x ∈ B, x < 256) :
    ∀ ch ∈ b64encode B, ch.toNat < 128 := by
  induction B using b64encode.induct with
  | case1 => simp [b64encode]
  | case2 a =>
      have ha : a < 256 := hB a (by simp)
      intro ch hch
      simp only [b64encode, List.mem_cons, List.not_mem_nil, or_false] at hch
      rcases hch with h | h | h | h <;> subst h
      · exact b64alphabet_ascii _ (by omega)
      · exact b64alphabet_ascii _ (by omega)
      · decide
      · decide
  | case3 a b =>
      have ha : a < 256 := hB a (by simp)
      have hb : b < 256 := hB b (by simp)
      intro ch hch
      simp only [b64encode, List.mem_cons, List.not_mem_nil, or_false] at hch
      rcases hch with h | h | h | h <;> subst h
      · exact b64alphabet_ascii _ (by omega)
      · exact b64alphabet_ascii _ (by omega)
      · exact b64alphabet_ascii _ (by omega)
      · decide
  | case4 a b c rest ih =>
      have ha : a < 256 := hB a (by simp)
      have hb : b < 256 := hB b (by simp)
      have hc : c < 256 := hB c (by simp)
      intro ch hch
      simp only [b64encode, List.mem_cons] at hch
      rcases hch with h | h | h | h | h
      · subst h; exact b64alphabet_ascii _ (by omega)
      · subst h; exact b64alphabet_ascii _ (by omega)
      · subst h; exact b64alphabet_ascii _ (by omega)
      · subst h; exact b64alphabet_ascii _ (by omega)
      · exact ih (fun x hx => hB x (by simp [hx])) ch h

/-- Decoding inverts encoding on genuine bytes (`base64` round-trip). -/
theorem b64decode_b64encode (B : List Nat) (hB : ∀ x ∈ B, x < 256) :
    b64decode (String.mk (b64encode B)) = some B := by
  have hdata : (String.mk (b64encode B)).data = b64encode B := rfl
  rw [b64decode, hdata, if_pos, a2bLoop_b64encode B hB []]
  · simp
  · rw [List.all_eq_true]
    intro ch hch
    exact decide_eq_true (b64encode_ascii B hB ch hch)

end McpSharePoint

/-! ## The upload tool (claims C1, C2) -/

namespace McpServer

open McpSharePoint

/-- C1.  For every payload string that is not valid base64, `upload_file`
with `is_base64 = true` raises the decode error before the backend upload
is invoked: the result is a tool-invocation error and the trace of backend
upload calls is empty, so no write side effect is observed. -/
theorem upload_invalid_base64_fails_before_backend
    (svc : SharePointService) (folder : Option String) (name payload : String)
    (h : b64decode payload = none) :
    upload_file svc folder name payload true =
      (Except.error ToolError.invalid_base64, []) := by
  simp [upload_file, h]

theorem upload_invalid_base64_fails_before_backend_witness :
    b64decode "a" = none ∧
    upload_file Sample.service (some "/sites/demo/docs") "f.txt" "a" true =
      (Except.error ToolError.invalid_base64, []) :=
  ⟨rfl, upload_invalid_base64_fails_before_backend Sample.service
    (some "/sites/demo/docs") "f.txt" "a" rfl⟩

/-- C2.  `upload_file` passes exactly the decoded payload bytes to the
backend upload call: with `is_base64 = true` the base64 decoding of the
payload, with `is_base64 = false` its UTF-8 encoding; the destination is
the resolved folder plus the name, where the resolved folder is the
configured default library when the folder argument is absent and the
folder itself when it is a non-empty string. -/
theorem upload_file_passes_decoded_bytes (svc : SharePointService)
    (folder : Option String) (name payload : String) :
    (∀ data, b64decode payload = some data →
      (upload_file svc folder name payload true).2 =
        [(strOrDefault folder svc.default_library, name, data)]) ∧
    (upload_file svc folder name payload false).2 =
      [(strOrDefault folder svc.default_library, name, utf8Encode payload)] ∧
    strOrDefault none svc.default_library = svc.default_library ∧
    (∀ f, f ≠ "" → strOrDefault (some f) svc.default_library = f) := by
  refine ⟨fun data h => ?_, ?_, rfl, fun f hf => ?_⟩
  · simp [upload_file, h]
  · simp [upload_file]
  · simp [strOrDefault, hf]

theorem upload_file_passes_decoded_bytes_witness :
    (upload_file Sample.service none "f.txt" "aGk=" true).2 =
      [(strOrDefault none Sample.service.default_library, "f.txt", [104, 105])] ∧
    (upload_file Sample.service (some "/d") "f.txt" "hi" false).2 =
      [(strOrDefault (some "/d") Sample.service.default_library, "f.txt",
        utf8Encode "hi")] :=
  ⟨(upload_file_passes_decoded_bytes Sample.service none "f.txt" "aGk=").1
      [104, 105] rfl,
   (upload_file_passes_decoded_bytes Sample.service (some "/d") "f.txt" "hi").2.1⟩

end McpServer

/-! ## Serialization of downloads (claims C3, C4) -/

namespace McpServer

open McpSharePoint

/-- Field lookups on the serialization of a textual download. -/
theorem lookup_serialize_text (f : SharePointDownload) (s : String)
    (h : f.content = Content.text s) :
    List.lookup "content_type" (serialize_file f true) = some (JValue.str "text") ∧
    List.lookup "text" (serialize_file f true) = some (JValue.str s) ∧
    List.lookup "base64" (serialize_file f true) = none := by
  refine ⟨?_, ?_, ?_⟩ <;> simp [serialize_file, h, List.lookup]

/-- Field lookups on the serialization of a binary download. -/
theorem lookup_serialize_binary (f : SharePointDownload) (b : List Nat)
    (h : f.content = Content.binary b) :
    List.lookup "content_type" (serialize_file f true) = some (JValue.str "base64") ∧
    List.lookup "base64" (serialize_file f true) =
      some (JValue.str (String.mk (b64encode b))) ∧
    List.lookup "text" (serialize_file f true) = none := by
  refine ⟨?_, ?_, ?_⟩ <;> simp [serialize_file, h, List.lookup]

/-- C3.  When the backend returns raw bytes, the serialized mapping carries
a base64 field whose string decodes back to exactly those bytes (round-trip
law). -/
theorem serialize_file_base64_roundtrip (f : SharePointDownload) (b : List Nat)
    (hc : f.content = Content.binary b) (hb : ∀ x ∈ b, x < 256) :
    ∃ s, List.lookup "base64" (serialize_file f true) = some (JValue.str s) ∧
      b64decode s = some b :=
  ⟨String.mk (b64encode b), (lookup_serialize_binary f b hc).2.1,
   b64decode_b64encode b hb⟩

theorem serialize_file_base64_roundtrip_witness :
    Sample.binaryDownload.content = Content.binary [0, 255, 7] ∧
    ∃ s, List.lookup "base64" (serialize_file Sample.binaryDownload true) =
        some (JValue.str s) ∧ b64decode s = some [0, 255, 7] :=
  ⟨rfl, serialize_file_base64_roundtrip Sample.binaryDownload [0, 255, 7]
    rfl (by decide)⟩

/-- In every serialized mapping with content, the content-kind tag matches
the content field that is present. -/
theorem serialize_tag_matches_field (f : SharePointDownload) :
    ((∃ s, List.lookup "text" (serialize_file f true) = some (JValue.str s)) ↔
      List.lookup "content_type" (serialize_file f true) =
        some (JValue.str "text")) ∧
    ((∃ s, List.lookup "base64" (serialize_file f true) = some (JValue.str s)) ↔
      List.lookup "content_type" (serialize_file f true) =
        some (JValue.str "base64")) := by
  cases hc : f.content with
  | text s =>
      obtain ⟨h1, h2, h3⟩ := lookup_serialize_text f s hc
      refine ⟨?_, ?_⟩ <;> simp [h1, h2, h3]
  | binary b =>
      obtain ⟨h1, h2, h3⟩ := lookup_serialize_binary f b hc
      refine ⟨?_, ?_⟩ <;> simp [h1, h2, h3]

/-- C4.  Under the spec contract that the backend honors `as_text`:
`download_file` with mode text returns the text tag and a text field,
with mode binary the base64 tag and a base64 field, and in every returned
mapping (any mode) the content-kind tag matches the content field present. -/
theorem download_file_mode_tags (svc : SharePointService)
    (hsvc : honors_as_text svc) (path : String) :
    (List.lookup "content_type" (download_file svc path Mode.text) =
        some (JValue.str "text") ∧
      ∃ s, List.lookup "text" (download_file svc path Mode.text) =
        some (JValue.str s)) ∧
    (List.lookup "content_type" (download_file svc path Mode.binary) =
        some (JValue.str "base64") ∧
      ∃ s, List.lookup "base64" (download_file svc path Mode.binary) =
        some (JValue.str s)) ∧
    (∀ mode : Mode,
      ((∃ s, List.lookup "text" (download_file svc path mode) =
          some (JValue.str s)) ↔
        List.lookup "content_type" (download_file svc path mode) =
          some (JValue.str "text")) ∧
      ((∃ s, List.lookup "base64" (download_file svc path mode) =
          some (JValue.str s)) ↔
        List.lookup "content_type" (download_file svc path mode) =
          some (JValue.str "base64"))) := by
  obtain ⟨htext, hbin⟩ := hsvc
  refine ⟨?_, ?_, ?_⟩
  · obtain ⟨s, hs⟩ := htext path
    obtain ⟨h1, h2, _⟩ := lookup_serialize_text _ s hs
    exact ⟨h1, s, h2⟩
  · obtain ⟨b, hb⟩ := hbin path
    obtain ⟨h1, h2, _⟩ := lookup_serialize_binary _ b hb
    exact ⟨h1, _, h2⟩
  · intro mode
    cases mode <;> exact serialize_tag_matches_field _

theorem download_file_mode_tags_witness :
    honors_as_text Sample.service ∧
    List.lookup "content_type" (download_file Sample.service "/f" Mode.text) =
      some (JValue.str "text") :=
  ⟨⟨fun _ => ⟨"hi", rfl⟩, fun _ => ⟨[104, 105], rfl⟩⟩,
   (download_file_mode_tags Sample.service
     ⟨fun _ => ⟨"hi", rfl⟩, fun _ => ⟨[104, 105], rfl⟩⟩ "/f").1.1⟩

end McpServer

/-! ## Folder listing and defaulting (claims C5, C10) -/

namespace McpServer

open McpSharePoint

/-- C5.  `list_folder` with no path argument queries the backend
enumeration at the configured default library path, and the returned
mapping echoes that default in its path field (its items are exactly the
serialized enumeration of the default library). -/
theorem list_folder_defaults_to_library (svc : SharePointService) :
    (list_folder svc none).2 = svc.default_library ∧
    List.lookup "path" ((list_folder svc none).1) =
      some (JValue.str svc.default_library) ∧
    List.lookup "items" ((list_folder svc none).1) =
      some (JValue.arr ((svc.enumerate svc.default_library).map item_json)) := by
  refine ⟨rfl, ?_, ?_⟩ <;>
    simp [list_folder, SharePointService.list_folder, strOrDefault, List.lookup]

/-- C10.  An empty-string argument behaves like an absent argument for the
defaulting parameters: `list_folder` with the empty path echoes the
configured default library in its path field, and `upload_file` with the
empty folder behaves exactly as with no folder — in particular every
backend write it performs goes into the configured default library. -/
theorem empty_string_argument_defaults (svc : SharePointService)
    (name payload : String) (is_base64 : Bool) :
    List.lookup "path" ((list_folder svc (some "")).1) =
      some (JValue.str svc.default_library) ∧
    upload_file svc (some "") name payload is_base64 =
      upload_file svc none name payload is_base64 ∧
    (∀ call ∈ (upload_file svc (some "") name payload is_base64).2,
      call.1 = svc.default_library) := by
  refine ⟨?_, ?_, ?_⟩
  · simp [list_folder, SharePointService.list_folder, strOrDefault, List.lookup]
  · simp [upload_file, strOrDefault]
  · intro call hcall
    rcases hd : (if is_base64 then b64decode payload
                 else some (utf8Encode payload)) with _ | data
    · simp [upload_file, hd] at hcall
    · simp [upload_file, hd, strOrDefault] at hcall
      simp [hcall]

theorem empty_string_argument_defaults_witness :
    List.lookup "path" ((list_folder Sample.service (some "")).1) =
      some (JValue.str Sample.service.default_library) ∧
    ("/sites/demo/Shared Documents", "f.txt",
      ([104, 105] : List Nat)).1 = Sample.service.default_library := by
  have h := empty_string_argument_defaults Sample.service "f.txt" "hi" false
  exact ⟨h.1, h.2.2 ("/sites/demo/Shared Documents", "f.txt", [104, 105])
    (List.mem_cons_self _ _)⟩

/-- C9.  Every successful `upload_file` result mapping has exactly the
fields name, path, size and download_url, in that order, and carries no
content field: neither a text nor a base64 field, nor a content-kind tag. -/
theorem upload_result_fields (svc : SharePointService) (folder : Option String)
    (name payload : String) (is_base64 : Bool) (r : List (String × JValue))
    (h : (upload_file svc folder name payload is_base64).1 = Except.ok r) :
    r.map Prod.fst = ["name", "path", "size", "download_url"] ∧
    List.lookup "text" r = none ∧
    List.lookup "base64" r = none ∧
    List.lookup "content_type" r = none := by
  rcases hd : (if is_base64 then b64decode payload
               else some (utf8Encode payload)) with _ | data
  · rw [show (upload_file svc folder name payload is_base64).1 =
        Except.error ToolError.invalid_base64 by simp [upload_file, hd]] at h
    exact absurd h (by simp)
  · rw [show (upload_file svc folder name payload is_base64).1 =
        Except.ok
          [("name", JValue.str
              (svc.upload_file (strOrDefault folder svc.default_library)
                name data).name),
           ("path", JValue.str
              (svc.upload_file (strOrDefault folder svc.default_library)
                name data).server_relative_path),
           ("size", JValue.num
              (svc.upload_file (strOrDefault folder svc.default_library)
                name data).size),
           ("download_url", JValue.str
              (svc.upload_file (strOrDefault folder svc.default_library)
                name data).download_url)] by simp [upload_file, hd]] at h
    injection h with h
    subst h
    exact ⟨rfl, rfl, rfl, rfl⟩

theorem upload_result_fields_witness :
    (upload_file Sample.service none "f.txt" "hi" false).1 =
      Except.ok Sample.uploadResult ∧
    (Sample.uploadResult.map Prod.fst =
        ["name", "path", "size", "download_url"] ∧
      List.lookup "text" Sample.uploadResult = none ∧
      List.lookup "base64" Sample.uploadResult = none ∧
      List.lookup "content_type" Sample.uploadResult = none) :=
  ⟨rfl, upload_result_fields Sample.service none "f.txt" "hi" false
    Sample.uploadResult rfl⟩

end McpServer

/-! ## The service singleton (claim C6) -/

namespace McpServer

open McpSharePoint

/-- With a filled cache cell, every further tool invocation reuses the
cached handle and constructs nothing. -/
theorem process_ops_cached (fromEnv : Except String SharePointSettings)
    (build : SharePointSettings → SharePointService) (svc : SharePointService) :
    ∀ (ops : List ToolOp) (k : Nat),
    process_ops fromEnv build ops ⟨some svc, k⟩ =
      (ops.map fun op => (run_tool svc op, some svc), ⟨some svc, k⟩) := by
  intro ops
  induction ops with
  | nil => intro k; rfl
  | cons op ops ih =>
      intro k
      simp [process_ops, process_op, get_service, ih]

/-- With missing settings, every tool invocation fails and nothing is ever
constructed or cached. -/
theorem process_ops_missing_settings (e : String)
    (build : SharePointSettings → SharePointService) :
    ∀ (ops : List ToolOp) (k : Nat),
    process_ops (Except.error e) build ops ⟨none, k⟩ =
      (ops.map fun _ => (Except.error (ToolError.settings_missing e), none),
       ⟨none, k⟩) := by
  intro ops
  induction ops with
  | nil => intro k; rfl
  | cons op ops ih =>
      intro k
      simp [process_ops, process_op, get_service, ih]

/-- C6.  Across every sequence of tool invocations within one process the
backend service client is constructed at most once; every handle a tool
body uses is the same one, built by the first successful getter call from
the environment-derived settings. -/
theorem service_constructed_at_most_once
    (fromEnv : Except String SharePointSettings)
    (build : SharePointSettings → SharePointService) (ops : List ToolOp) :
    (process_ops fromEnv build ops initState).2.constructions ≤ 1 ∧
    (∀ r₁ r₂ s₁ s₂,
      (r₁, some s₁) ∈ (process_ops fromEnv build ops initState).1 →
      (r₂, some s₂) ∈ (process_ops fromEnv build ops initState).1 → s₁ = s₂) ∧
    (∀ r s, (r, some s) ∈ (process_ops fromEnv build ops initState).1 →
      ∃ settings, fromEnv = Except.ok settings ∧ s = build settings) := by
  cases fromEnv with
  | error e =>
      rw [show initState = (⟨none, 0⟩ : ProcState) from rfl,
        process_ops_missing_settings]
      have hnone : ∀ (r : Except ToolError JValue) (s : SharePointService),
          (r, some s) ∈ (ops.map fun _ =>
            ((Except.error (ToolError.settings_missing e) :
                Except ToolError JValue), (none : Option SharePointService))) →
          False := by
        intro r s hmem
        obtain ⟨o, _, heq⟩ := List.mem_map.mp hmem
        exact Option.noConfusion (congrArg Prod.snd heq)
      exact ⟨Nat.zero_le 1,
        fun r₁ r₂ s₁ s₂ h1 _ => absurd h1 (fun h => hnone r₁ s₁ h),
        fun r s h => absurd h (fun h => hnone r s h)⟩
  | ok settings =>
      cases ops with
      | nil =>
          refine ⟨Nat.zero_le 1, ?_, ?_⟩ <;> intro r₁ <;>
            simp [process_ops, initState]
      | cons op ops =>
          rw [show process_ops (Except.ok settings) build (op :: ops) initState =
              ((run_tool (build settings) op, some (build settings)) ::
                (ops.map fun o =>
                  (run_tool (build settings) o, some (build settings))),
               ⟨some (build settings), 1⟩) by
            simp [process_ops, process_op, get_service, initState,
              process_ops_cached]]
          have hmem : ∀ (r : Except ToolError JValue) (s : SharePointService),
              (r, some s) ∈
                ((run_tool (build settings) op, some (build settings)) ::
                  (ops.map fun o =>
                    (run_tool (build settings) o, some (build settings)))) →
              s = build settings := by
            intro r s h
            rcases List.mem_cons.mp h with h | h
            · exact Option.some.inj (congrArg Prod.snd h)
            · obtain ⟨o, _, heq⟩ := List.mem_map.mp h
              exact (Option.some.inj (congrArg Prod.snd heq)).symm
          exact ⟨Nat.le_refl 1,
            fun r₁ r₂ s₁ s₂ h1 h2 => (hmem r₁ s₁ h1).trans (hmem r₂ s₂ h2).symm,
            fun r s h => ⟨settings, rfl, hmem r s h⟩⟩

theorem service_constructed_at_most_once_witness :
    (process_ops (Except.ok Sample.settings) (fun _ => Sample.service)
        [ToolOp.list none, ToolOp.resolve "/x"] initState).2.constructions ≤ 1 ∧
    (∃ s, (Except.ok Sample.settings : Except String SharePointSettings) =
        Except.ok s ∧ Sample.service = (fun _ => Sample.service) s) := by
  have h := service_constructed_at_most_once (Except.ok Sample.settings)
    (fun _ => Sample.service) [ToolOp.list none, ToolOp.resolve "/x"]
  exact ⟨h.1, h.2.2 (run_tool Sample.service (ToolOp.list none)) Sample.service
    (List.mem_cons_self _ _)⟩

end McpServer

/-! ## The prompt dispatcher (claims C7, C8) -/

namespace McpClient

/-- The accumulator loop of `String.intercalate` computes `joinSpace`. -/
theorem intercalate_go_joinSpace :
    ∀ (as : List String) (a : String),
    String.intercalate.go a " " as = joinSpace (a :: as) := by
  intro as
  induction as with
  | nil => intro a; rfl
  | cons b as ih =>
      intro a
      rw [String.intercalate.go, ih (a ++ " " ++ b)]
      cases as with
      | nil => rfl
      | cons c as => simp [joinSpace, String.append_assoc]

/-- Joining with single spaces is `String.intercalate " "`. -/
theorem joinSpace_eq_intercalate (ws : List String) :
    joinSpace ws = String.intercalate " " ws := by
  cases ws with
  | nil => rfl
  | cons w ws => rw [String.intercalate, intercalate_go_joinSpace]

/-- C7.  On an empty word sequence the effective prompt is exactly the
fixed fallback string (no failure), and on a non-empty one it is the words
joined by single spaces in order. -/
theorem ensure_prompt_behavior :
    ensure_prompt [] =
      "List the files available in our SharePoint document library." ∧
    ∀ ws : List String, ws ≠ [] → ensure_prompt ws = String.intercalate " " ws := by
  refine ⟨rfl, fun ws hws => ?_⟩
  rw [← joinSpace_eq_intercalate]
  cases ws with
  | nil => exact absurd rfl hws
  | cons w ws => simp [ensure_prompt]

theorem ensure_prompt_behavior_witness :
    (["list", "the", "files"] : List String) ≠ [] ∧
    ensure_prompt ["list", "the", "files"] =
      String.intercalate " " ["list", "the", "files"] :=
  ⟨List.cons_ne_nil _ _,
   ensure_prompt_behavior.2 ["list", "the", "files"] (List.cons_ne_nil _ _)⟩

/-- C8.  With the credential variable unset, `main` exits with the usage
error and submits no network request; a chat-completion request is on the
trace only when a non-empty credential is present. -/
theorem main_requires_credential (args : ParsedArgs)
    (respond : ChatRequest → Option String) :
    main none args respond =
      (MainOutcome.usage_error "OPENAI_API_KEY environment variable must be set",
       []) ∧
    (∀ (api_key : Option String) (req : ChatRequest),
      req ∈ (main api_key args respond).2 → ∃ k, api_key = some k ∧ k ≠ "") := by
  refine ⟨rfl, fun api_key req h => ?_⟩
  cases api_key with
  | none => simp [main, truthyEnv] at h
  | some k =>
      by_cases hk : k = ""
      · subst hk
        simp [main, truthyEnv] at h
      · exact ⟨k, rfl, hk⟩

theorem main_requires_credential_witness :
    main none Sample.args (fun _ => none) =
      (MainOutcome.usage_error "OPENAI_API_KEY environment variable must be set",
       []) ∧
    ∃ k, (some "sk-test" : Option String) = some k ∧ k ≠ "" := by
  have h := main_requires_credential Sample.args (fun _ => none)
  exact ⟨h.1, h.2 (some "sk-test") Sample.request (List.mem_cons_self _ _)⟩

end McpClient
